import Mathlib

/-!
Shallow embedding of `src/viventium_integration.py` (class `ViventiumIntegration`)
and proofs of the specification claims about it.

Modelling conventions:
* A JSON object (Python `dict`) is an association list `Record := List (String × String)`
  in iteration order; values that the claims inspect are strings, and `dict.get`
  returns `Option String` (Python `None` renders as the string "None" inside
  f-strings, via `pyStr`).
* A parsed JSON body is either an object or an array of objects (`PyJson`),
  which covers every body this adapter touches.
* Python exceptions are `Except String` results; an unhandled secondary
  exception inside `_handle_response` (JSON decode failure on a non-2xx body,
  attribute error on a non-object body) is the `unhandled` outcome.
* The pagination `while True:` loop is embedded with explicit fuel; `none`
  means the fuel ran out before the loop hit one of its `break` statements.
-/

namespace Viventium

/-- A vendor JSON object (Python `dict`): field name to value, in iteration order. -/
abbrev Record := List (String × String)

/-- Python `d.get(k)`: the value at the first matching key, or `None` when absent. -/
def getKey (r : Record) (k : String) : Option String :=
  (r.find? (fun p => p.1 == k)).map (fun p => p.2)

/-- Python `k in d` for a dict. -/
def hasKey (r : Record) (k : String) : Bool :=
  r.any (fun p => p.1 == k)

/-- Rendering of an optional value inside a Python f-string: `None` prints as "None". -/
def pyStr : Option String → String
  | none => "None"
  | some s => s

/-- A parsed JSON body: an object, or an array of objects. -/
inductive PyJson where
  | dict (fields : Record)
  | list (elems : List Record)
  deriving DecidableEq

/-- The raw HTTP response as seen by `_handle_response`:
status, reason phrase, the f-string rendering of `response.headers`,
the JSON parse outcome of the body (`none` when parsing raises), and the raw text. -/
structure HttpResponse where
  status : Nat
  reason : String
  headersStr : String
  jsonBody : Option PyJson
  text : String
  deriving DecidableEq

/-- The integration name passed to the base-class constructor
(`super().__init__("viventium")`, line 11). -/
def integration_name : String := "viventium"

/-- Outcome of `_handle_response`: the parsed body on success, one of the two
typed errors, or an unhandled secondary exception escaping the handler. -/
inductive HResult where
  | success (body : PyJson)
  | authError (integrationName : String) (message : String)
  | apiError (integrationName : String) (message : String) (statusCode : Nat)
  | unhandled (exception : String)
  deriving DecidableEq

/-- Modelled from the spec: the class `IntegrationAuthError` lives in
`submodule_integrations.utils.errors`, which is not part of `src/`.
Spec §7 states "Two error kinds, both carrying the integration name";
`_handle_response` constructs an `IntegrationAuthError` from a message alone,
so the class itself supplies the integration name of this adapter. -/
def mkAuthError (message : String) : HResult :=
  .authError integration_name message

/-- `IntegrationAPIError` constructor: the call sites in `src/` pass the
integration name, the message and the status code explicitly. -/
def mkApiError (name : String) (message : String) (statusCode : Nat) : HResult :=
  .apiError name message statusCode

/-- The message built for the 400/401 branch (lines 50-53). -/
def authMessage (statusCode : Nat) (reason : String) (r_json : Record) : String :=
  "ERSP: " ++ toString statusCode ++ " - " ++ reason ++ " \n" ++
  "message: " ++ pyStr (getKey r_json "message") ++ " \n" ++
  "error_type: " ++ pyStr (getKey r_json "error_type")

/-- The message built for the other-failure branch (lines 58-60). -/
def apiMessage (statusCode : Nat) (headersStr : String) (r_json : Record) : String :=
  "ersp: " ++ toString statusCode ++ " - " ++ headersStr ++ " \n" ++
  "message: " ++ pyStr (getKey r_json "message") ++ " \n" ++
  "error_type: " ++ pyStr (getKey r_json "error_type")

/-- `_handle_response` (lines 33-62), status classification of a response. -/
def handle_response (resp : HttpResponse) : HResult :=
  if resp.status ∈ [200, 201, 204] then
    match resp.jsonBody with
    | some body => .success body
    | none => mkApiError integration_name resp.text resp.status
  else
    let status_code := resp.status
    if status_code ∈ [400, 401] then
      match resp.jsonBody with
      | none => .unhandled "JSONDecodeError"
      | some (.list _) => .unhandled "AttributeError"
      | some (.dict r_json) => mkAuthError (authMessage status_code resp.reason r_json)
    else
      match resp.jsonBody with
      | none => .unhandled "JSONDecodeError"
      | some (.list _) => .unhandled "AttributeError"
      | some (.dict r_json) =>
          mkApiError integration_name (apiMessage status_code resp.headersStr r_json) status_code

/-- Python `'; '.join(xs)`: empty string on an empty sequence, otherwise a
left fold inserting the separator. -/
def pyJoin (sep : String) : List String → String
  | [] => ""
  | x :: xs => xs.foldl (fun acc e => acc ++ sep ++ e) x

/-- `make_cookie_string` (lines 79-81). -/
def make_cookie_string (cookies : List (String × String)) : String :=
  pyJoin "; " (cookies.map (fun p => p.1 ++ "=" ++ p.2))

/-- The `cookies: dict | str` argument. -/
inductive CookiesArg where
  | dict (m : List (String × String))
  | str (s : String)

/-- The value stored into `headers['Cookie']` (lines 103-105 and 115-117):
a dict is formatted by `make_cookie_string`, a string passes through. -/
def cookieHeaderValue : CookiesArg → String
  | .dict m => make_cookie_string m
  | .str s => s

/-- A request as issued by `_make_request`: the method, the full path and the
plain query parameters. -/
structure Request where
  method : String
  path : String
  params : List (String × String)
  deriving DecidableEq

/-- `self.url` (line 14). -/
def base_url : String := "https://hcm.viventium.com/api"

/-- The fixed GET issued by `_get_division_id` (lines 96-107). -/
def divisionRequest : Request :=
  { method := "GET"
  , path := base_url ++ "/" ++ "paystream/v1/divisions"
  , params := [("pageNumber", "1"), ("pageSize", "1000")] }

/-- `_get_division_id` (lines 83-109), given the backend response for its one
request: `response[0]` raises `IndexError` on an empty sequence, otherwise the
`id` field of the first entry is returned (Python `.get`, so `None` if absent).
The list of requests issued is returned alongside. -/
def get_division_id (backend : Request → List Record) :
    List Request × Except String (Option String) :=
  let response := backend divisionRequest
  ([divisionRequest],
    match response with
    | [] => .error "IndexError: list index out of range"
    | d :: _ => .ok (getKey d "id"))

/-- The `query_options` structure built each iteration (lines 125-143). -/
structure QueryOptions where
  query : String
  filterParameters : List (String × String × String)
  sortParameters : List (String × String)
  pageSize : Nat
  whereParameters : List String
  pageNumber : Nat
  deriving DecidableEq

/-- The query options for a given page of the employee-profile grid. -/
def gridQueryOptions (page : Nat) : QueryOptions :=
  { query := ""
  , filterParameters := [("EmployeeStatus", "In", "[\"Active\"]")]
  , sortParameters := [("EmployeeNumber", "Ascending")]
  , pageSize := 100
  , whereParameters := []
  , pageNumber := page }

/-- The `while True:` pagination loop of `fetch_employee_profiles`
(lines 123-160), with explicit fuel. The backend maps the query options of a
grid request to the sequence of records it returns. Returns the accumulator
and the list of grid requests issued, or `none` when the fuel ran out before
a `break`. Faithful to the source order: an empty response breaks without
appending; a non-empty response is appended, then a response shorter than 100
breaks; otherwise the page counter is incremented. -/
def fetchEmployeePages (backend : QueryOptions → List Record) :
    Nat → Nat → List Record → List QueryOptions →
    Option (List Record × List QueryOptions)
  | 0, _, _, _ => none
  | fuel + 1, page, employee_list, reqs =>
      let q := gridQueryOptions page
      let employees := backend q
      if 0 < employees.length then
        if employees.length < 100 then some (employee_list ++ employees, reqs ++ [q])
        else fetchEmployeePages backend fuel (page + 1) (employee_list ++ employees) (reqs ++ [q])
      else some (employee_list, reqs ++ [q])

/-- Python `employee.pop('DivisionKey')` with no default (line 163): raises
`KeyError` when the key is absent, otherwise removes the entry. -/
def popDivisionKey (employee : Record) : Except String Record :=
  if hasKey employee "DivisionKey" then
    .ok (employee.eraseP (fun p => p.1 == "DivisionKey"))
  else
    .error "KeyError: DivisionKey"

/-- The final `for employee in employee_list: employee.pop('DivisionKey')`
pass (lines 162-163): a `KeyError` on any record aborts the whole call. -/
def stripDivisionKeys : List Record → Except String (List Record)
  | [] => .ok []
  | r :: rs => do
      let r' ← popDivisionKey r
      let rs' ← stripDivisionKeys rs
      pure (r' :: rs')

/-- A backend serving the same total list of grid records on every pagination
run: page `p` of size `s` is the slice `l[(p-1)*s : (p-1)*s + s]`, so every
response has at most `pageSize` (here 100) records. -/
def pagedBackend (l : List Record) (q : QueryOptions) : List Record :=
  (l.drop ((q.pageNumber - 1) * q.pageSize)).take q.pageSize

/-- `fetch_employee_profiles` (lines 111-165) over explicit backends:
resolve the division, run the pagination loop, then strip `DivisionKey`
from every accumulated record. `none` when the loop fuel ran out;
otherwise the Python result or exception. -/
def fetch_employee_profiles (divBackend : Request → List Record)
    (gridBackend : QueryOptions → List Record) (fuel : Nat) :
    Option (Except String (List Record)) :=
  match (get_division_id divBackend).2 with
  | .error e => some (.error e)
  | .ok _division_id =>
      match fetchEmployeePages gridBackend fuel 1 [] [] with
      | none => none
      | some (employee_list, _) => some (stripDivisionKeys employee_list)

/-- The operations `fetch_employee_profiles` and `_get_division_id` may apply
to a Python dict: read-only iteration over `items()` (inside
`make_cookie_string`), or `pop(k)` (applied to employee records only). -/
inductive DictOp where
  | items
  | pop (k : String)

/-- Effect of one dict operation on the dict contents. -/
def applyDictOp (d : List (String × String)) : DictOp → List (String × String)
  | .items => d
  | .pop k => d.eraseP (fun p => p.1 == k)

/-- Whether a dict operation is read-only. -/
def isReadOnly : DictOp → Bool
  | .items => true
  | .pop _ => false

/-- The dict operations `make_cookie_string` performs on its argument:
one read-only `items()` iteration (line 81). -/
def make_cookie_string_dictOps : List DictOp := [.items]

/-- The operations applied to the caller-supplied cookies mapping during one
`fetch_employee_profiles(token, cookies)` call with a dict argument:
`_get_division_id` formats it (line 104), then the paginator formats it
again (line 116). The assignments `cookies = ...` on lines 104 and 116
rebind locals and are not dict operations. -/
def fetchCookieOps : List DictOp :=
  make_cookie_string_dictOps ++ make_cookie_string_dictOps

/-! ### Helper lemmas -/

theorem intercalate_go_eq_foldl (sep : String) (xs : List String) : ∀ acc : String,
    String.intercalate.go acc sep xs = xs.foldl (fun a e => a ++ sep ++ e) acc := by
  induction xs with
  | nil => intro acc; simp [String.intercalate.go]
  | cons y ys ih => intro acc; simp [String.intercalate.go, ih]

/-- The Python left-fold join agrees with the library `String.intercalate`. -/
theorem pyJoin_eq_intercalate (sep : String) (xs : List String) :
    pyJoin sep xs = String.intercalate sep xs := by
  cases xs with
  | nil => rfl
  | cons x rest => simp [pyJoin, String.intercalate, intercalate_go_eq_foldl]

theorem pagedBackend_grid (l : List Record) (page : Nat) :
    pagedBackend l (gridQueryOptions page) = (l.drop ((page - 1) * 100)).take 100 := rfl

/-- Running the pagination loop against a backend that pages a fixed total
list `l` in slices of 100: starting from any page `page ≥ 1` with enough
fuel, the loop collects exactly the records from position `(page-1)*100`
on, and issues requests for the consecutive pages `page, page+1, ...`,
`(remaining/100) + 1` many. -/
theorem fetchEmployeePages_paged (l : List Record) :
    ∀ (fuel page : Nat) (acc : List Record) (reqs : List QueryOptions),
      1 ≤ page →
      (l.length - (page - 1) * 100) / 100 + 1 ≤ fuel →
      fetchEmployeePages (pagedBackend l) fuel page acc reqs =
        some (acc ++ l.drop ((page - 1) * 100),
          reqs ++ (List.range' page ((l.length - (page - 1) * 100) / 100 + 1)).map
            gridQueryOptions) := by
  intro fuel
  induction fuel with
  | zero => intro page acc reqs _ hfuel; omega
  | succ fuel ih =>
    intro page acc reqs hpage hfuel
    have hremlen : (l.drop ((page - 1) * 100)).length = l.length - (page - 1) * 100 :=
      List.length_drop _ _
    rw [fetchEmployeePages]
    simp only [pagedBackend_grid]
    by_cases hz : (l.drop ((page - 1) * 100)).length = 0
    · have hnil : l.drop ((page - 1) * 100) = [] := List.length_eq_zero.mp hz
      have hcount : (l.length - (page - 1) * 100) / 100 + 1 = 1 := by
        rw [← hremlen, hz]
      rw [hnil, hcount]
      simp [List.range'_one]
    · by_cases hlt : (l.drop ((page - 1) * 100)).length < 100
      · have htake : (l.drop ((page - 1) * 100)).take 100 = l.drop ((page - 1) * 100) :=
          List.take_of_length_le (by omega)
        have hcount : (l.length - (page - 1) * 100) / 100 + 1 = 1 := by
          rw [← hremlen, Nat.div_eq_of_lt hlt]
        rw [htake, if_pos (by omega), if_pos (by omega), hcount]
        simp [List.range'_one]
      · push_neg at hlt
        have hlen : ((l.drop ((page - 1) * 100)).take 100).length = 100 := by
          rw [List.length_take]; omega
        rw [if_pos (by omega), if_neg (by omega)]
        have hfuel2 : (l.length - (page + 1 - 1) * 100) / 100 + 1 ≤ fuel := by
          have h1 : page * 100 = (page - 1) * 100 + 100 := by omega
          simp only [Nat.add_sub_cancel]
          omega
        rw [ih (page + 1) _ _ (by omega) hfuel2]
        have hdrop : l.drop (page * 100) = (l.drop ((page - 1) * 100)).drop 100 := by
          rw [List.drop_drop]
          congr 1
          omega
        have hsplit : (l.drop ((page - 1) * 100)).take 100 ++ l.drop (page * 100) =
            l.drop ((page - 1) * 100) := by
          rw [hdrop]
          exact List.take_append_drop 100 _
        have hc : (l.length - (page - 1) * 100) / 100 + 1 =
            ((l.length - (page + 1 - 1) * 100) / 100 + 1) + 1 := by
          have h1 : page * 100 = (page - 1) * 100 + 100 := by omega
          simp only [Nat.add_sub_cancel]
          omega
        rw [hc, List.range'_succ]
        simp only [Nat.add_sub_cancel] at hsplit ⊢
        simp [List.append_assoc, hsplit, List.range'_succ]

/-! ### Claim theorems -/

/-- C1: against a backend serving pages of at most 100 records out of a fixed
total list, the pagination loop starts at page 1, appends every non-empty
page, and terminates per the source order of checks, issuing requests for
consecutive pages `1..(total/100)+1` and accumulating the whole list; in
particular, with exactly 250 records three grid requests occur with returned
page sizes 100, 100, 50 and the result has all 250 records, and with exactly
200 records a third request is issued, returns the empty sequence, and the
loop stops with three total requests. -/
theorem fetch_pagination_spec :
    (∀ l : List Record,
      fetchEmployeePages (pagedBackend l) (l.length / 100 + 1) 1 [] [] =
        some (l, (List.range' 1 (l.length / 100 + 1)).map gridQueryOptions)) ∧
    (∀ r : Record,
      fetchEmployeePages (pagedBackend (List.replicate 250 r)) 3 1 [] [] =
        some (List.replicate 250 r,
          [gridQueryOptions 1, gridQueryOptions 2, gridQueryOptions 3]) ∧
      List.map (fun p => (pagedBackend (List.replicate 250 r) (gridQueryOptions p)).length)
        [1, 2, 3] = [100, 100, 50]) ∧
    (∀ r : Record,
      fetchEmployeePages (pagedBackend (List.replicate 200 r)) 3 1 [] [] =
        some (List.replicate 200 r,
          [gridQueryOptions 1, gridQueryOptions 2, gridQueryOptions 3]) ∧
      pagedBackend (List.replicate 200 r) (gridQueryOptions 3) = []) := by
  have hgen : ∀ l : List Record,
      fetchEmployeePages (pagedBackend l) (l.length / 100 + 1) 1 [] [] =
        some (l, (List.range' 1 (l.length / 100 + 1)).map gridQueryOptions) := by
    intro l
    have h := fetchEmployeePages_paged l (l.length / 100 + 1) 1 [] [] (le_refl 1)
      (by simp)
    simpa using h
  have hr : (List.range' 1 3).map gridQueryOptions =
      [gridQueryOptions 1, gridQueryOptions 2, gridQueryOptions 3] := by
    simp [List.range'_succ]
  refine ⟨hgen, fun r => ?_, fun r => ?_⟩
  · constructor
    · have h := hgen (List.replicate 250 r)
      rw [List.length_replicate] at h
      norm_num at h
      rw [hr] at h
      exact h
    · simp only [pagedBackend, gridQueryOptions, List.map_cons, List.map_nil,
        List.length_take, List.length_drop, List.length_replicate]
      norm_num
  · constructor
    · have h := hgen (List.replicate 200 r)
      rw [List.length_replicate] at h
      norm_num at h
      rw [hr] at h
      exact h
    · simp only [pagedBackend, gridQueryOptions]
      rw [List.drop_eq_nil_of_le (by rw [List.length_replicate])]
      rfl

/-- C2 counterexample: `employee.pop('DivisionKey')` is called with no
default, so a record lacking `DivisionKey` is not returned unchanged — the
stripping pass raises `KeyError` instead. -/
theorem strip_missing_division_key_fails :
    stripDivisionKeys [[("Name", "Ada")]] = .error "KeyError: DivisionKey" ∧
    stripDivisionKeys [[("Name", "Ada")]] ≠ .ok [[("Name", "Ada")]] := by
  have h1 : stripDivisionKeys [[("Name", "Ada")]] = .error "KeyError: DivisionKey" := rfl
  exact ⟨h1, by rw [h1]; intro h; exact Except.noConfusion h⟩

/-- C2 amended: the `DivisionKey` removal is unconditional. When every
accumulated record contains `DivisionKey`, each record has exactly that
entry removed and every other field keeps its value; when some record lacks
the field, the whole pass fails with a `KeyError` instead of returning the
record unchanged. -/
theorem strip_division_key_amended :
    (∀ rs : List Record, rs.all (fun r => hasKey r "DivisionKey") = true →
      stripDivisionKeys rs =
        .ok (rs.map (fun r => r.eraseP (fun p => p.1 == "DivisionKey")))) ∧
    (∀ rs : List Record, rs.all (fun r => hasKey r "DivisionKey") = false →
      ∃ e, stripDivisionKeys rs = .error e) ∧
    (∀ (r : Record) (k : String), k ≠ "DivisionKey" →
      getKey (r.eraseP (fun p => p.1 == "DivisionKey")) k = getKey r k) := by
  refine ⟨?_, ?_, ?_⟩
  · intro rs h
    induction rs with
    | nil => rfl
    | cons r rs ih =>
      simp only [List.all_cons, Bool.and_eq_true] at h
      have hpop : popDivisionKey r = .ok (r.eraseP (fun p => p.1 == "DivisionKey")) := by
        rw [popDivisionKey, if_pos h.1]
      simp only [stripDivisionKeys, hpop, ih h.2, List.map_cons]
      rfl
  · intro rs h
    induction rs with
    | nil => simp at h
    | cons r rs ih =>
      simp only [List.all_cons, Bool.and_eq_false_iff] at h
      rcases h with h | h
      · refine ⟨"KeyError: DivisionKey", ?_⟩
        have hpop : popDivisionKey r = .error "KeyError: DivisionKey" := by
          rw [popDivisionKey, if_neg (by simp [h])]
        simp only [stripDivisionKeys, hpop]
        rfl
      · rcases ih h with ⟨e, he⟩
        cases hpop : popDivisionKey r with
        | error e0 => exact ⟨e0, by simp only [stripDivisionKeys, hpop]; rfl⟩
        | ok r0 => exact ⟨e, by simp only [stripDivisionKeys, hpop, he]; rfl⟩
  · intro r k hk
    induction r with
    | nil => rfl
    | cons p t ih =>
      by_cases hp : p.1 == "DivisionKey"
      · have hne : (p.1 == k) = false := by
          have : p.1 = "DivisionKey" := by simpa using hp
          simp [this, Ne.symm hk]
        simp only [List.eraseP_cons, hp, cond_true]
        simp [getKey, List.find?, hne]
      · simp only [List.eraseP_cons, hp, cond_false]
        by_cases hpk : p.1 == k
        · simp [getKey, List.find?, hpk]
        · simp only [Bool.not_eq_true] at hpk
          simp only [getKey, List.find?, hpk] at ih ⊢
          exact ih

/-- Witness for the amended C2 theorem at concrete records. -/
theorem strip_division_key_amended_witness :
    stripDivisionKeys [[("DivisionKey", "7"), ("Name", "Ada")]] = .ok [[("Name", "Ada")]] ∧
    (∃ e, stripDivisionKeys [[("Name", "Ada")]] = .error e) ∧
    getKey (List.eraseP (fun p => p.1 == "DivisionKey")
      [("DivisionKey", "7"), ("Name", "Ada")]) "Name" =
      getKey [("DivisionKey", "7"), ("Name", "Ada")] "Name" := by
  refine ⟨?_, ?_, ?_⟩
  · have h := strip_division_key_amended.1 [[("DivisionKey", "7"), ("Name", "Ada")]]
      (by decide)
    simpa using h
  · exact strip_division_key_amended.2.1 [[("Name", "Ada")]] (by decide)
  · exact strip_division_key_amended.2.2 [("DivisionKey", "7"), ("Name", "Ada")] "Name"
      (by decide)

/-- C3: every typed error raised by `_handle_response`, whether an
`AuthError` (status 400/401) or an `APIError` (other failures), carries the
integration name. -/
theorem handle_response_errors_carry_integration_name (resp : HttpResponse) :
    match handle_response resp with
    | .authError n _ => n = integration_name
    | .apiError n _ _ => n = integration_name
    | _ => True := by
  simp only [handle_response]
  by_cases h1 : resp.status ∈ [200, 201, 204]
  · rw [if_pos h1]
    cases resp.jsonBody <;> simp [mkApiError]
  · rw [if_neg h1]
    by_cases h2 : resp.status ∈ [400, 401]
    · rw [if_pos h2]
      cases hb : resp.jsonBody with
      | none => simp
      | some b => cases b <;> simp [mkAuthError]
    · rw [if_neg h2]
      cases hb : resp.jsonBody with
      | none => simp
      | some b => cases b <;> simp [mkApiError]

/-- C4: for a response with status 400 or 401 and a JSON object body,
`_handle_response` raises an `AuthError` (never an `APIError`) whose message
embeds the status code, the HTTP reason phrase, and the vendor `message` and
`error_type` fields parsed from the JSON body. -/
theorem handle_response_auth_error_on_400_401 (resp : HttpResponse) (r_json : Record)
    (h1 : resp.status = 400 ∨ resp.status = 401)
    (h2 : resp.jsonBody = some (.dict r_json)) :
    handle_response resp =
      .authError integration_name
        ("ERSP: " ++ toString resp.status ++ " - " ++ resp.reason ++ " \n" ++
         "message: " ++ pyStr (getKey r_json "message") ++ " \n" ++
         "error_type: " ++ pyStr (getKey r_json "error_type")) := by
  have hnot : resp.status ∉ [200, 201, 204] := by rcases h1 with h | h <;> simp [h]
  have hin : resp.status ∈ [400, 401] := by rcases h1 with h | h <;> simp [h]
  simp only [handle_response, if_neg hnot, if_pos hin, h2, mkAuthError, authMessage]

/-- Witness for C4: a concrete 401 response. -/
theorem handle_response_auth_error_witness :
    handle_response ⟨401, "Unauthorized", "hdrs",
        some (.dict [("message", "bad token"), ("error_type", "invalid_session")]), "raw"⟩ =
      .authError "viventium"
        "ERSP: 401 - Unauthorized \nmessage: bad token \nerror_type: invalid_session" := by
  have h := handle_response_auth_error_on_400_401
    ⟨401, "Unauthorized", "hdrs",
      some (.dict [("message", "bad token"), ("error_type", "invalid_session")]), "raw"⟩
    [("message", "bad token"), ("error_type", "invalid_session")] (Or.inr rfl) rfl
  simpa [integration_name, pyStr, getKey] using h

/-- C5: for a response whose status is neither a success (200/201/204) nor
400/401, with a JSON object body, `_handle_response` raises an `APIError`
(not an `AuthError`) embedding the status code, the response headers, and
the vendor `message` and `error_type` fields, and carrying the status code. -/
theorem handle_response_api_error_on_other_failures (resp : HttpResponse) (r_json : Record)
    (h1 : resp.status ∉ [200, 201, 204])
    (h2 : resp.status ∉ [400, 401])
    (h3 : resp.jsonBody = some (.dict r_json)) :
    handle_response resp =
      .apiError integration_name
        ("ersp: " ++ toString resp.status ++ " - " ++ resp.headersStr ++ " \n" ++
         "message: " ++ pyStr (getKey r_json "message") ++ " \n" ++
         "error_type: " ++ pyStr (getKey r_json "error_type"))
        resp.status := by
  simp only [handle_response, if_neg h1, if_neg h2, h3, mkApiError, apiMessage]

/-- Witness for C5: a concrete 500 response. -/
theorem handle_response_api_error_witness :
    handle_response ⟨500, "Internal Server Error", "CIMultiDictProxy",
        some (.dict [("message", "boom"), ("error_type", "server")]), "raw"⟩ =
      .apiError "viventium"
        "ersp: 500 - CIMultiDictProxy \nmessage: boom \nerror_type: server" 500 := by
  have h := handle_response_api_error_on_other_failures
    ⟨500, "Internal Server Error", "CIMultiDictProxy",
      some (.dict [("message", "boom"), ("error_type", "server")]), "raw"⟩
    [("message", "boom"), ("error_type", "server")] (by simp) (by simp) rfl
  simpa [integration_name, pyStr, getKey] using h

/-- C6: for a response with a success status (200/201/204), `_handle_response`
returns the parsed body unchanged when parsing succeeds, and raises an
`APIError` exactly when parsing fails, carrying the integration name, the
status code of the response, and the raw response text. -/
theorem handle_response_success_branch (resp : HttpResponse)
    (h : resp.status ∈ [200, 201, 204]) :
    (∀ b, resp.jsonBody = some b → handle_response resp = .success b) ∧
    (resp.jsonBody = none →
      handle_response resp = .apiError integration_name resp.text resp.status) ∧
    (∀ n m s, handle_response resp = .apiError n m s →
      resp.jsonBody = none ∧ n = integration_name ∧ m = resp.text ∧ s = resp.status) := by
  refine ⟨?_, ?_, ?_⟩
  · intro b hb
    rw [handle_response, if_pos h, hb]
  · intro hb
    rw [handle_response, if_pos h, hb]
    rfl
  · intro n m s hres
    rw [handle_response, if_pos h] at hres
    cases hb : resp.jsonBody with
    | some b =>
      rw [hb] at hres
      exact HResult.noConfusion hres
    | none =>
      rw [hb] at hres
      simp only [mkApiError, HResult.apiError.injEq] at hres
      exact ⟨rfl, hres.1.symm, hres.2.1.symm, hres.2.2.symm⟩

/-- Witness for C6: concrete 200 responses with a parseable and an
unparseable body. -/
theorem handle_response_success_witness :
    handle_response ⟨200, "OK", "hdrs", some (.list [[("a", "1")]]), "t"⟩ =
      .success (.list [[("a", "1")]]) ∧
    handle_response ⟨200, "OK", "hdrs", none, "not json"⟩ =
      .apiError "viventium" "not json" 200 ∧
    (⟨200, "OK", "hdrs", none, "not json"⟩ : HttpResponse).jsonBody = none := by
  have hs := handle_response_success_branch ⟨200, "OK", "hdrs", none, "not json"⟩ (by simp)
  have hap := hs.2.1 rfl
  exact ⟨(handle_response_success_branch _ (by simp)).1 (.list [[("a", "1")]]) rfl,
    hap, (hs.2.2 _ _ _ hap).1⟩

/-- C7: the division resolver issues exactly one GET with pageSize 1000 and
pageNumber 1 against the fixed divisions endpoint, and returns the `id`
field of the first entry of the returned sequence; in particular, for the
response `[{"id": "D1"}, {"id": "D2"}]` it returns "D1". -/
theorem division_resolver_spec (backend : Request → List Record) :
    (get_division_id backend).1 =
      [{ method := "GET"
       , path := "https://hcm.viventium.com/api/paystream/v1/divisions"
       , params := [("pageNumber", "1"), ("pageSize", "1000")] }] ∧
    (∀ d rest, backend divisionRequest = d :: rest →
      (get_division_id backend).2 = .ok (getKey d "id")) ∧
    (backend divisionRequest = [[("id", "D1")], [("id", "D2")]] →
      (get_division_id backend).2 = .ok (some "D1")) := by
  refine ⟨rfl, ?_, ?_⟩
  · intro d rest hb
    simp only [get_division_id, hb]
  · intro hb
    simp only [get_division_id, hb]
    rfl

/-- Witness for C7: a backend returning two divisions D1 and D2. -/
theorem division_resolver_witness :
    (get_division_id (fun _ => [[("id", "D1")], [("id", "D2")]])).2 = .ok (some "D1") :=
  (division_resolver_spec (fun _ => [[("id", "D1")], [("id", "D2")]])).2.2 rfl

/-- C8: the cookie string built from a mapping with N entries is the
`key=value` pair strings — N of them, in mapping iteration order — joined
by "; "; a cookies argument that is already a string is used unchanged. -/
theorem cookie_string_spec :
    (∀ m : List (String × String),
      make_cookie_string m =
        String.intercalate "; " (m.map (fun p => p.1 ++ "=" ++ p.2)) ∧
      (m.map (fun p => p.1 ++ "=" ++ p.2)).length = m.length) ∧
    (∀ s, cookieHeaderValue (.str s) = s) := by
  refine ⟨fun m => ⟨?_, ?_⟩, fun s => rfl⟩
  · rw [make_cookie_string, pyJoin_eq_intercalate]
  · simp

/-- C9: when the first grid page for the division is empty (zero active
employees), `fetch_employee_profiles` returns the empty sequence normally:
the `DivisionKey` stripping pass iterates over nothing and no error is
raised. -/
theorem fetch_empty_first_page (divBackend : Request → List Record)
    (grid : QueryOptions → List Record) (fuel : Nat)
    (hdiv : divBackend divisionRequest ≠ [])
    (hgrid : grid (gridQueryOptions 1) = [])
    (hfuel : 1 ≤ fuel) :
    fetch_employee_profiles divBackend grid fuel = some (.ok []) := by
  obtain ⟨d, rest, hd⟩ : ∃ d rest, divBackend divisionRequest = d :: rest := by
    cases h : divBackend divisionRequest with
    | nil => exact absurd h hdiv
    | cons d rest => exact ⟨d, rest, rfl⟩
  obtain ⟨f, rfl⟩ : ∃ f, fuel = f + 1 := ⟨fuel - 1, by omega⟩
  rw [fetch_employee_profiles]
  simp only [get_division_id, hd]
  rw [fetchEmployeePages]
  simp only [hgrid, List.length_nil, Nat.lt_irrefl, if_false]
  rfl

/-- Witness for C9: one division, a grid backend with no active employees,
fuel 1. -/
theorem fetch_empty_first_page_witness :
    fetch_employee_profiles (fun _ => [[("id", "D1")]]) (fun _ => []) 1 =
      some (.ok []) :=
  fetch_empty_first_page (fun _ => [[("id", "D1")]]) (fun _ => []) 1
    (by simp) rfl (by omega)

/-- C10: the caller-supplied cookie mapping is never mutated by
`fetch_employee_profiles` or `_get_division_id`: replaying a trace of
read-only dict operations over any mapping leaves it unchanged, every
operation in the cookie trace of a fetch is read-only, and hence the cookie
mapping after the call equals the mapping before it. -/
theorem cookies_not_mutated :
    (∀ (m : List (String × String)) (ops : List DictOp),
      ops.all isReadOnly = true → ops.foldl applyDictOp m = m) ∧
    fetchCookieOps.all isReadOnly = true ∧
    (∀ m : List (String × String), fetchCookieOps.foldl applyDictOp m = m) := by
  have hread : ∀ (ops : List DictOp) (m : List (String × String)),
      ops.all isReadOnly = true → ops.foldl applyDictOp m = m := by
    intro ops
    induction ops with
    | nil => intro m _; rfl
    | cons op t ih =>
      intro m h
      simp only [List.all_cons, Bool.and_eq_true] at h
      cases op with
      | items =>
        simp only [List.foldl_cons, applyDictOp]
        exact ih m h.2
      | pop k => simp [isReadOnly] at h
  exact ⟨fun m ops h => hread ops m h, rfl, fun m => hread _ m rfl⟩

/-- Witness for C10: replaying one read-only iteration over a concrete
mapping. -/
theorem cookies_not_mutated_witness :
    [DictOp.items].all isReadOnly = true ∧
    [DictOp.items].foldl applyDictOp [("sess", "abc")] = [("sess", "abc")] :=
  ⟨rfl, cookies_not_mutated.1 [("sess", "abc")] [DictOp.items] rfl⟩

end Viventium
